import Mathlib

/-!
Verification development for the OSmOSE core API:
the temporal segmentation and virtual-data-assembly layer
(File → Item → Data → Dataset), the audio buffer-fill loop,
the LTAS recursive spectrogram, the SpectroDataset manifest
round-trip and the timestamp-template validator.

Timestamps are modelled as integers (ticks, e.g. nanoseconds),
durations as integer tick counts, matching pandas' integer-backed
Timestamp/Timedelta. Sample values are rationals standing for floats;
black-box numeric kernels (resampler, FFT, magnitude) are taken as
explicit function parameters, following the spec which places them
out of scope.
-/

/-- Half-open time interval [begin, end). Modelled from the spec:
`core_api/event.py` (the Event base class) is absent from the sources;
the spec defines an Event as an immutable half-open interval `[begin, end)`
with invariant `begin < end`, equal iff both bounds match exactly. -/
structure Event where
  begin : Int
  end' : Int
  deriving Repr, DecidableEq

/-- Duration of an event, as in the spec: `duration = end - begin`. -/
def Event.duration (e : Event) : Int := e.end' - e.begin

/-- Well-formedness invariant of an event: `begin < end`. -/
def Event.wf (e : Event) : Prop := e.begin < e.end'

/-- Modelled from the spec: `core_api/base_file.py` is absent from the
sources; the spec defines a File as a path (unique identifier) plus its
Event. Decode parameters are not needed for the base-layer claims. -/
structure BaseFile where
  path : String
  begin : Int
  end' : Int
  deriving Repr, DecidableEq

/-- Modelled from the spec: `core_api/base_item.py` is absent from the
sources; the spec defines an Item as a reference to a sub-interval of
exactly one File, or to no file (an empty Item representing a gap). -/
structure BaseItem where
  file : Option BaseFile
  begin : Int
  end' : Int
  deriving Repr, DecidableEq

/-- The is_empty flag: `is_empty` is true iff the item references no file (spec 4.3). -/
def BaseItem.is_empty (it : BaseItem) : Bool := it.file.isNone

/-- Item/File containment invariant from the spec (3, Item):
`begin >= file.begin` and `end <= file.end` when a file is present. -/
def BaseItem.fileBounds (it : BaseItem) : Prop :=
  ∀ f, it.file = some f → f.begin ≤ it.begin ∧ it.end' ≤ f.end'

instance (it : BaseItem) : Decidable it.fileBounds := by
  unfold BaseItem.fileBounds
  exact inferInstance

/-- Modelled from the spec: item construction for a window (spec 4.4 step 5,
`base_data.py` being absent from the sources). Walking the (time-sorted)
files with a cursor starting at the window begin: each file overlapping the
remaining window contributes an Item clipped to the file bounds, gaps in
between become empty Items, and the remaining tail after the last file
becomes a final empty Item. -/
def itemsWalk (e : Int) : List BaseFile → Int → List BaseItem
  | [], cur => if cur < e then [⟨none, cur, e⟩] else []
  | f :: fs, cur =>
    if f.end' ≤ cur ∨ e ≤ f.begin then itemsWalk e fs cur
    else
      (if cur < f.begin then [⟨none, cur, f.begin⟩] else [])
        ++ ⟨some f, max cur f.begin, min e f.end'⟩
          :: itemsWalk e fs (min e f.end')

/-- Modelled from the spec: `core_api/base_data.py` is absent from the
sources; the spec defines a Data as an ordered, contiguous sequence of
Items covering `[begin, end)`. -/
structure BaseData where
  items : List BaseItem
  begin : Int
  end' : Int
  deriving Repr, DecidableEq

/-- Modelled from the spec (4.4 steps 1 and 5): `BaseData.from_files`
defaults `begin`/`end` to the first file's begin / last file's end, honors
explicitly given out-of-range bounds verbatim, and builds the Items by
intersecting the window against every File's Event, empty Items filling the
regions not covered by any File. -/
def BaseData.from_files
    (files : List BaseFile) (b e : Option Int) : BaseData :=
  let b' := b.getD (((files.head?).map (·.begin)).getD 0)
  let e' := e.getD (((files.getLast?).map (·.end')).getD 0)
  ⟨itemsWalk e' files b', b', e'⟩

/-- The distinct underlying files of a data, in item order. -/
def BaseData.files (dd : BaseData) : List BaseFile :=
  dd.items.filterMap (·.file)

/-- Modelled from the spec (3, Data): two Data objects are equal iff same
begin, same end, and same underlying file identities (paths) in the same
order — a structural, content-independent equality (`BaseData.__eq__`,
absent from the sources). -/
def BaseData.beq (d1 d2 : BaseData) : Bool :=
  decide (d1.begin = d2.begin) && decide (d1.end' = d2.end')
    && decide (d1.files.map (·.path) = d2.files.map (·.path))

/-- Modelled from the spec (3 and 8, narrowing-only mutation;
`BaseData.begin` setter, absent from the sources): assigning a begin
earlier than the current begin is a no-op; otherwise the data is narrowed
to the assigned begin and the items are re-clipped (items ending before
the new begin are dropped, a straddling item has its begin clipped). -/
def BaseData.set_begin (dd : BaseData) (t : Int) : BaseData :=
  if t < dd.begin then dd
  else
    ⟨dd.items.filterMap
        (fun it =>
          if it.end' ≤ t then none
          else some ⟨it.file, max it.begin t, it.end'⟩),
      t, dd.end'⟩

/-- Modelled from the spec (3 and 8, narrowing-only mutation;
`BaseData.end` setter, absent from the sources): assigning an end later
than the current end is a no-op; otherwise the data is narrowed to the
assigned end and the items are re-clipped. -/
def BaseData.set_end (dd : BaseData) (t : Int) : BaseData :=
  if dd.end' < t then dd
  else
    ⟨dd.items.filterMap
        (fun it =>
          if t ≤ it.begin then none
          else some ⟨it.file, it.begin, min it.end' t⟩),
      dd.begin, t⟩

/-- Modelled from the spec (4.4 `split`): divide `[begin, end)` into n
equal sub-intervals (integer-tick boundaries via floored division, as
pandas does on nanosecond ticks) and return one Data per sub-interval,
each containing clipped copies of the Items overlapping it. -/
def BaseData.split (dd : BaseData) (n : Nat) : List BaseData :=
  (List.range n).map
    (fun k =>
      let sb := dd.begin + (dd.end' - dd.begin) * k / n
      let se := dd.begin + (dd.end' - dd.begin) * (k + 1) / n
      (BaseData.set_begin (BaseData.set_end dd se) sb))

/-- Modelled from the spec (4.4 step 3, `base_dataset.py` being absent
from the sources): walk forward from `b` in steps of `d`, emitting the
full-length window `[cur, cur + d)` as long as `cur < e`. The loop is
written with an explicit step budget; `(e - b).toNat` steps always
suffice since each step advances the cursor by `d ≥ 1`. -/
def windowsLoop (d : Int) : Nat → Int → Int → List Event
  | 0, _, _ => []
  | fuel + 1, b, e =>
    if b < e then ⟨b, b + d⟩ :: windowsLoop d fuel (b + d) e else []

/-- Modelled from the spec (4.4 steps 2 and 3): with no `data_duration`,
one window spanning `[b, e)`; with a fixed duration, the fixed-length
windows produced by the forward walk. -/
def data_events (b e : Int) (d : Option Int) : List Event :=
  match d with
  | none => [⟨b, e⟩]
  | some d => if 0 < d then windowsLoop d (e - b).toNat b e else []

/-- Modelled from the spec: `core_api/base_dataset.py` is absent from the
sources; a Dataset is an ordered collection of Data objects. -/
structure BaseDataset where
  data : List BaseData
  deriving Repr, DecidableEq

/-- Modelled from the spec (4.4, partition algorithm): `begin`/`end`
default to the first file's begin / last file's end, the partition
computes the window Events, and every window becomes a Data built from
the files via `BaseData.from_files`. -/
def BaseDataset.from_files
    (files : List BaseFile) (b e : Option Int) (d : Option Int) :
    BaseDataset :=
  let b' := b.getD (((files.head?).map (·.begin)).getD 0)
  let e' := e.getD (((files.getLast?).map (·.end')).getD 0)
  ⟨(data_events b' e' d).map
      (fun ev => BaseData.from_files files (some ev.begin) (some ev.end'))⟩

/-- Membership of a time point in the union of the dataset's Data Events. -/
def BaseDataset.covers (ds : BaseDataset) (t : Int) : Bool :=
  ds.data.any (fun dd => decide (dd.begin ≤ t ∧ t < dd.end'))

/-- The Events of the dataset's Data objects, in order. -/
def BaseDataset.events (ds : BaseDataset) : List Event :=
  ds.data.map (fun dd => ⟨dd.begin, dd.end'⟩)

/-! ## Audio layer (`core_api/audio_data.py`) -/

/-- Python's built-in `round`: round half to even (banker's rounding),
as used by `AudioData.shape` and `AudioData._get_item_value`. -/
def pyRound (q : Rat) : Int :=
  let f := ⌊q⌋
  if q - f < 1 / 2 then f
  else if 1 / 2 < q - f then f + 1
  else if f % 2 = 0 then f else f + 1

/-- Duration of a data in seconds (`self.duration.total_seconds()`);
ticks are nanoseconds. -/
def BaseData.durationSeconds (dd : BaseData) : Rat :=
  ((dd.end' - dd.begin : Int) : Rat) / 1000000000

/-- Duration of an item in seconds (`item.duration.total_seconds()`). -/
def BaseItem.durationSeconds (it : BaseItem) : Rat :=
  ((it.end' - it.begin : Int) : Rat) / 1000000000

/-- An AudioData is a BaseData plus a sample rate
(`audio_data.py`, `AudioData.__init__`). -/
structure AudioData where
  base : BaseData
  sample_rate : Rat
  deriving Repr, DecidableEq

/-- The shape property `AudioData.shape` (audio_data.py line 69, mono case):
`round(self.sample_rate * self.duration.total_seconds())`. -/
def AudioData.shape (ad : AudioData) : Nat :=
  (pyRound (ad.sample_rate * ad.base.durationSeconds)).toNat

/-- The numpy slice assignment `data[idx : idx + len(vals)] = vals`. -/
def writeAt (buf : List Rat) (idx : Nat) (vals : List Rat) : List Rat :=
  buf.take idx ++ vals ++ buf.drop (idx + vals.length)

/-- The buffer-fill loop of `AudioData.get_value`
(audio_data.py lines 112-117): each item value is truncated to
`min(item_data.shape[0], data.shape[0] - idx)` samples (the space
remaining in the buffer), written at `idx`, and `idx` advances by the
truncated length. -/
def fillLoop (n : Nat) : List Rat → Nat → List (List Rat) → List Rat
  | buf, _, [] => buf
  | buf, idx, v :: vs =>
    let k := (min (v.length : Int) ((n : Int) - (idx : Int))).toNat
    let v' := v.take k
    fillLoop n (writeAt buf idx v') (idx + v'.length) vs

/-- The item materialization `AudioData._get_item_value` (audio_data.py lines 142-151): an empty
item yields its placeholder repeated
`round(item.duration.total_seconds() * self.sample_rate)` times
(`audio_item.py` is absent from the sources; the spec, 4.3, makes the
placeholder a zero-filled repeatable neutral value); a file-backed item
yields the decoded and (if needed) resampled samples, modelled by the
black-box `readResample` following the spec, which places codec I/O and
the resampler out of scope. -/
def AudioData.get_item_value (sr : Rat) (readResample : BaseItem → List Rat)
    (it : BaseItem) : List Rat :=
  if it.is_empty then
    List.replicate (pyRound (it.durationSeconds * sr)).toNat 0
  else readResample it

/-- Arithmetic mean of a list (`np.mean`). -/
def listMean (l : List Rat) : Rat := l.sum / l.length

/-- The materialization `AudioData.get_value` (audio_data.py lines 95-120): allocate a buffer
of `shape` samples, fill it item by item with truncation, then optionally
subtract the global mean (`reject_dc`). -/
def AudioData.get_value (readResample : BaseItem → List Rat)
    (reject_dc : Bool) (ad : AudioData) : List Rat :=
  let n := ad.shape
  let data := fillLoop n (List.replicate n 0) 0
    (ad.base.items.map (AudioData.get_item_value ad.sample_rate readResample))
  if reject_dc then data.map (fun x => x - listMean data) else data

/-- The split operation `AudioData.split` (audio_data.py lines 153-170): split the base data
and keep the sample rate. -/
def AudioData.split (ad : AudioData) (n : Nat) : List AudioData :=
  (ad.base.split n).map (fun b => ⟨b, ad.sample_rate⟩)

/-! ## Spectro layer (`data/ltas_data.py`; `spectro_data.py` is absent
from the sources and is modelled from the spec) -/

/-- FFT parameter set of a `scipy.signal.ShortTimeFFT`:
window, hop, sampling rate, transform size. -/
structure SFT where
  win : List Rat
  hop : Nat
  fs : Rat
  mfft : Nat
  deriving Repr, DecidableEq

/-- A transform matrix `[freq_bins, time_bins]`. -/
abbrev SxMatrix := List (List Rat)

/-- Modelled from the spec (4.5): a SpectroData computed from an
`audio_data` back-reference carries the AudioData and the fft
(`spectro_data.py`, `SpectroData.from_audio_data`, is absent from the
sources). -/
structure SpectroData where
  audio : AudioData
  fft : SFT
  deriving Repr, DecidableEq

/-- Modelled from the spec (4.5): audio-backed `SpectroData.get_value`
runs the black-box FFT transform `stftK`, parameterized by `fft`, over
the AudioData's materialized waveform. -/
def SpectroData.get_value (stftK : SFT → List Rat → SxMatrix)
    (readResample : BaseItem → List Rat) (sd : SpectroData) : SxMatrix :=
  stftK sd.fft (sd.audio.get_value readResample false)

/-- Modelled from the spec (4.6): the number of time columns implied by
the window's duration and sample rate (`SpectroData.shape[1]`, i.e.
scipy's `p_num` of the audio length; `spectro_data.py` is absent from the
sources), with the black-box `pnum` standing for `ShortTimeFFT.p_num`. -/
def SpectroData.shape2 (pnum : SFT → Nat → Nat) (sd : SpectroData) : Nat :=
  pnum sd.fft sd.audio.shape

/-- The LTAS data: a SpectroData plus the target time-bin count
(`ltas_data.py`, `LTASData.__init__`). -/
structure LTASData where
  audio : AudioData
  fft : SFT
  nb_time_bins : Nat
  deriving Repr, DecidableEq

/-- The derived LTAS fft `LTASData.get_ltas_fft` (ltas_data.py lines 129-135): same window,
sampling rate and mfft, hop forced to the window length. -/
def LTASData.get_ltas_fft (fft : SFT) : SFT :=
  ⟨fft.win, fft.win.length, fft.fs, fft.mfft⟩

/-- The constructor `LTASData.from_spectro_data` (ltas_data.py lines 113-127): rebuild an
LTASData from a SpectroData's fields; `LTASData.__init__` derives the
LTAS fft from the given fft. -/
def LTASData.from_spectro_data (sd : SpectroData) (ntb : Nat) : LTASData :=
  ⟨sd.audio, LTASData.get_ltas_fft sd.fft, ntb⟩

/-- The plain SpectroData over the same window and fft as the LTASData. -/
def LTASData.toSpectro (L : LTASData) : SpectroData := ⟨L.audio, L.fft⟩

/-- The recursive materialization `LTASData.get_value` (ltas_data.py lines 87-111): if the implied
time-column count is at most `nb_time_bins`, delegate to the plain
`SpectroData.get_value`; otherwise split the audio into `nb_time_bins`
parts, recurse on each, average each sub-result across its time axis
(`np.mean(.., axis=1)`) and stack the averaged columns (`np.vstack(..).T`).
The recursion is given an explicit depth budget `fuel`; exhausting it
models non-termination and returns `none`. -/
def LTASData.get_value (stftK : SFT → List Rat → SxMatrix)
    (pnum : SFT → Nat → Nat) (readResample : BaseItem → List Rat) :
    Nat → LTASData → Option SxMatrix
  | fuel, L =>
    if SpectroData.shape2 pnum L.toSpectro ≤ L.nb_time_bins then
      some (SpectroData.get_value stftK readResample L.toSpectro)
    else
      match fuel with
      | 0 => none
      | fuel + 1 =>
        let subs := (L.audio.split L.nb_time_bins).map
          (fun ad => LTASData.from_spectro_data ⟨ad, L.fft⟩ L.nb_time_bins)
        (subs.mapM (LTASData.get_value stftK pnum readResample fuel)).map
          (fun ms => (ms.map (fun m => m.map listMean)).transpose)

/-! ## Spectro value dtype (`spectro_data.py` is absent from the sources;
modelled from the spec, 4.5, and the behavior pinned by
`tests/test_spectro.py::test_spectrogram_sx_dtype`) -/

/-- The dtype tag of the Sx matrix: complex raw transform or derived real
magnitude. -/
inductive SxDtype where
  | complex
  | float
  deriving Repr, DecidableEq

/-- Stored Sx values: complex matrix or real (absolute) matrix. -/
inductive SxValues where
  | cplx (m : List (List (Rat × Rat)))
  | real (m : List (List Rat))
  deriving Repr, DecidableEq

/-- The spec's error taxonomy entry for a lossy dtype upgrade (7); the
code-level counterpart pinned by the tests is a `TypeError` carrying the
message below. -/
inductive SpectroError where
  | TypeConversionError (msg : String)
  deriving Repr, DecidableEq

/-- Modelled from the spec (4.5): a file-backed SpectroData holds the
stored values (with their on-disk dtype) and the requested `sx_dtype`. -/
structure FileSpectroData where
  sx : SxValues
  sx_dtype : SxDtype
  deriving Repr, DecidableEq

/-- Assigning `sx_dtype` (a plain attribute assignment, always succeeds). -/
def FileSpectroData.set_sx_dtype (sd : FileSpectroData) (t : SxDtype) :
    FileSpectroData :=
  { sd with sx_dtype := t }

/-- Modelled from the spec (4.5): `sx_dtype` controls whether `get_value`
returns the complex transform or its real magnitude; downgrading
complex→real applies the black-box magnitude `mag` entrywise (phase
discarded); upgrading stored-real values to complex fails (the message is
the one pinned by `tests/test_spectro.py`). -/
def FileSpectroData.get_value (mag : Rat × Rat → Rat)
    (sd : FileSpectroData) : Except SpectroError SxValues :=
  match sd.sx, sd.sx_dtype with
  | .cplx m, .complex => .ok (.cplx m)
  | .cplx m, .float => .ok (.real (m.map (fun row => row.map mag)))
  | .real m, .float => .ok (.real m)
  | .real _, .complex =>
      .error (.TypeConversionError
        "Cannot convert absolute npz values to complex sx values.")

/-! ## SpectroDataset manifest (`core_api/spectro_dataset.py`) -/

/-- A `ShortTimeFFT` object: its parameter set plus an object identity
(`id` models CPython object identity, which makes `str(fft)` distinct for
distinct objects). -/
structure SFTObj where
  id : Nat
  win : List Rat
  hop : Nat
  fs : Rat
  mfft : Nat
  deriving Repr, DecidableEq

/-- The dictionary key `str(data.fft)`, determined by the object identity. -/
def SFTObj.name (f : SFTObj) : String := toString f.id

/-- Parameter-set equality of two fft objects:
same window, hop, sampling rate and mfft. -/
def SFTObj.paramsEq (a b : SFTObj) : Bool :=
  decide (a.win = b.win) && decide (a.hop = b.hop)
    && decide (a.fs = b.fs) && decide (a.mfft = b.mfft)

/-- One entry of the serialized `sft` table
(spectro_dataset.py lines 85-91). -/
structure SftEntry where
  win : List Rat
  hop : Nat
  fs : Rat
  mfft : Nat
  spectro_data : List String
  deriving Repr, DecidableEq

/-- The comparison of spectro_dataset.py lines 77-80:
`np.array_equal(data.fft.win, sft["win"]) and data.fft.hop == sft["hop"]
and data.fft.fs == sft["fs"] and data.fft.mfft == sft["mfft"]`. -/
def sftMatches (en : SftEntry) (fft : SFTObj) : Bool :=
  decide (fft.win = en.win) && decide (fft.hop = en.hop)
    && decide (fft.fs = en.fs) && decide (fft.mfft = en.mfft)

/-- A SpectroData as the manifest sees it: its name (`str(data)`, the
formatted begin timestamp), its serialized parameters (begin/end) and its
fft object. `SpectroData.to_dict`/`from_dict` themselves live in
`spectro_data.py`, absent from the sources; per the spec (6), the
serialized data keeps its parameters and references its fft by name. -/
structure SpectroDataS where
  name : String
  begin : Int
  end' : Int
  fft : SFTObj
  deriving Repr, DecidableEq

/-- Appending `str(data)` to the first matching `sft` table entry
(the mutation `sft["spectro_data"].append(str(data))` of
spectro_dataset.py line 93 on the entry found by `next(...)`). -/
def sftAppendFirst :
    List (String × SftEntry) → SFTObj → String → List (String × SftEntry)
  | [], _, _ => []
  | ke :: rest, fft, nm =>
    if sftMatches ke.2 fft then
      (ke.1, { ke.2 with spectro_data := ke.2.spectro_data ++ [nm] }) :: rest
    else ke :: sftAppendFirst rest fft nm

/-- One step of the `sft` table construction loop of
`SpectroDataset.to_dict` (spectro_dataset.py lines 72-93): look for an
entry with the same parameter set; if none, add a new entry keyed by
`str(data.fft)` holding the parameters and `[str(data)]`; else append
`str(data)` to the found entry. -/
def sftFold (tbl : List (String × SftEntry)) (d : SpectroDataS) :
    List (String × SftEntry) :=
  if tbl.any (fun ke => sftMatches ke.2 d.fft) then
    sftAppendFirst tbl d.fft d.name
  else
    tbl ++ [(d.fft.name,
      ⟨d.fft.win, d.fft.hop, d.fft.fs, d.fft.mfft, [d.name]⟩)]

/-- The serialized SpectroDataset manifest: the `"data"` table
(name ↦ serialized data, without the fft) and the `"sft"` table. -/
structure SpectroDatasetDict where
  data : List (String × Int × Int)
  sft : List (String × SftEntry)
  deriving Repr, DecidableEq

/-- The serializer `SpectroDataset.to_dict` (spectro_dataset.py lines 62-95). -/
def SpectroDataset.to_dict (ds : List SpectroDataS) : SpectroDatasetDict :=
  ⟨ds.map (fun d => (d.name, d.begin, d.end')), ds.foldl sftFold []⟩

/-- The deserializer `SpectroDataset.from_dict` (spectro_dataset.py lines 97-131):
reconstruct one `ShortTimeFFT` per `sft` entry (a fresh object, id 0),
then rebuild every data with the first reconstructed fft whose
`spectro_data` list contains the data's name (`next(...)`; its
`StopIteration` on a dangling reference is modelled by `none`). -/
def SpectroDataset.from_dict (dd : SpectroDatasetDict) :
    Option (List SpectroDataS) :=
  let sfts := dd.sft.map
    (fun ke => (SFTObj.mk 0 ke.2.win ke.2.hop ke.2.fs ke.2.mfft,
      ke.2.spectro_data))
  dd.data.mapM
    (fun nde =>
      (sfts.find? (fun se => se.2.contains nde.1)).map
        (fun se => SpectroDataS.mk nde.1 nde.2.1 nde.2.2 se.1))

/-- The FFT parameter quadruple of an `sft` table entry. -/
def enParams (en : SftEntry) : List Rat × Nat × Rat × Nat :=
  (en.win, en.hop, en.fs, en.mfft)

/-- The FFT parameter quadruple of a `ShortTimeFFT` object. -/
def fftParams (f : SFTObj) : List Rat × Nat × Rat × Nat :=
  (f.win, f.hop, f.fs, f.mfft)

/-- Invariant of the `sft` table built from the already-processed data:
entries have pairwise distinct parameter sets; every referenced name
belongs to a processed data whose parameters match the entry; every
processed data is referenced by an entry matching its parameters. -/
structure SftInv (processed : List SpectroDataS)
    (tbl : List (String × SftEntry)) : Prop where
  distinct : tbl.Pairwise (fun a b => enParams a.2 ≠ enParams b.2)
  sound : ∀ ke ∈ tbl, ∀ nm ∈ ke.2.spectro_data,
    ∃ d ∈ processed, d.name = nm ∧ fftParams d.fft = enParams ke.2
  complete : ∀ d ∈ processed,
    ∃ ke ∈ tbl, fftParams d.fft = enParams ke.2
      ∧ d.name ∈ ke.2.spectro_data

/-! ## Timestamp templates (`utils/timestamp_utils.py`) -/

/-- The table `_REGEX_BUILDER` (timestamp_utils.py lines 13-26): the supported
strftime codes and their regex fragments. -/
def regexBuilder : List (String × String) :=
  [("%Y", "([12]\\d\x7b3\x7d)"),
   ("%y", "(\\d\x7b2\x7d)"),
   ("%m", "(0[1-9]|1[0-2])"),
   ("%d", "([0-2]\\d|3[0-1])"),
   ("%H", "([0-1]\\d|2[0-4])"),
   ("%I", "(0[1-9]|1[0-2])"),
   ("%p", "(AM|PM)"),
   ("%M", "([0-5]\\d)"),
   ("%S", "([0-5]\\d)"),
   ("%f", "(\\d\x7b1,6\x7d)"),
   ("%Z", "((?:\\w+)(?:[-/]\\w+)*(?:[\\+-]\\d+)?)"),
   ("%z", "([\\+-]\\d\x7b2\x7d:?\\d\x7b2\x7d)")]

/-- The supported strftime identifiers: the keys of `_REGEX_BUILDER` with
the `%` stripped (timestamp_utils.py line 169). -/
def strftime_identifiers : List Char :=
  ['Y', 'y', 'm', 'd', 'H', 'I', 'p', 'M', 'S', 'f', 'Z', 'z']

/-- The validator `is_datetime_template_valid` (timestamp_utils.py lines 147-178): for
every index holding a `%`, the template is rejected if the `%` is the
last character or if the following character is not a supported
identifier. -/
def is_datetime_template_valid (s : String) : Bool :=
  let t := s.toList
  (List.range t.length).all
    (fun i =>
      if t.getD i ' ' = '%' then
        if i = t.length - 1 then false
        else strftime_identifiers.contains (t.getD (i + 1) ' ')
      else true)

/-- The regex builder `build_regex_from_datetime_template` (timestamp_utils.py lines
119-144): escape parentheses, then substitute every supported code by its
regex fragment. -/
def build_regex_from_datetime_template (s : String) : String :=
  let escaped := ["(", ")"].foldl
    (fun acc ch => acc.replace ch ("\\" ++ ch)) s
  regexBuilder.foldl (fun acc kv => acc.replace kv.1 kv.2) escaped

/-- The `cleaned_date_template` of `strptime_from_text`
(timestamp_utils.py lines 218-222): the `_`-joined list of the `%`-codes
appearing in the template. -/
def cleaned_date_template (s : String) : String :=
  let t := s.toList
  String.intercalate "_"
    ((List.range t.length).filterMap
      (fun i =>
        if t.getD i ' ' = '%' then
          some (String.mk [t.getD i ' ', t.getD (i + 1) ' '])
        else none))

/-- The parser entry point `strptime_from_text` (timestamp_utils.py lines 181-223): reject
unsupported templates first (before building the regex), then run the
black-box regex engine `findall` and the black-box datetime parser `toDT`
on the joined first match. Raised `ValueError`s are modelled as
`Except.error` carrying the exact message. -/
def strptime_from_text (findall : String → String → List (List String))
    (toDT : String → String → Int) (text tmpl : String) :
    Except String Int :=
  if is_datetime_template_valid tmpl = false then
    .error (tmpl ++ " is not a supported strftime template")
  else
    let regex_pattern := build_regex_from_datetime_template tmpl
    match findall regex_pattern text with
    | [] => .error (text ++ " did not match the given " ++ tmpl ++ " template")
    | groups :: _ =>
      .ok (toDT (String.intercalate "_" groups) (cleaned_date_template tmpl))

/-! ## Helper lemmas -/

/-- Sanity: the identifiers are exactly the `%`-stripped keys of the
regex builder table. -/
theorem strftime_identifiers_eq_keys :
    regexBuilder.map (·.1)
      = strftime_identifiers.map (fun c => String.mk ['%', c]) := by decide

theorem writeAt_length (buf : List Rat) (idx : Nat) (vals : List Rat)
    (h : idx + vals.length ≤ buf.length) :
    (writeAt buf idx vals).length = buf.length := by
  simp only [writeAt, List.length_append, List.length_take, List.length_drop]
  omega

theorem fillLoop_length (n : Nat) :
    ∀ (vs : List (List Rat)) (buf : List Rat) (idx : Nat),
      idx ≤ n → buf.length = n → (fillLoop n buf idx vs).length = n := by
  intro vs
  induction vs with
  | nil => intro buf idx _ hbuf; simpa [fillLoop] using hbuf
  | cons v vs ih =>
    intro buf idx hidx hbuf
    have hmin : (min (v.length : Int) ((n : Int) - (idx : Int))).toNat
        ≤ n - idx := by omega
    have htake :
        (v.take (min (v.length : Int) ((n : Int) - (idx : Int))).toNat).length
          ≤ n - idx := by
      rw [List.length_take]
      omega
    simp only [fillLoop]
    apply ih
    · omega
    · rw [writeAt_length]
      · exact hbuf
      · omega

theorem itemsWalk_fileBounds (e : Int) :
    ∀ (files : List BaseFile) (cur : Int),
      ∀ it ∈ itemsWalk e files cur, it.fileBounds := by
  intro files
  induction files with
  | nil =>
    intro cur it hit
    unfold itemsWalk at hit
    by_cases h : cur < e
    · rw [if_pos h] at hit
      simp only [List.mem_singleton] at hit
      subst hit
      intro f hf
      simp at hf
    · rw [if_neg h] at hit
      simp at hit
  | cons f fs ih =>
    intro cur it hit
    unfold itemsWalk at hit
    by_cases h : f.end' ≤ cur ∨ e ≤ f.begin
    · rw [if_pos h] at hit
      exact ih cur it hit
    · rw [if_neg h] at hit
      simp only [List.mem_append, List.mem_cons] at hit
      rcases hit with hgap | hmid | hrest
      · by_cases hg : cur < f.begin
        · rw [if_pos hg] at hgap
          simp only [List.mem_singleton] at hgap
          subst hgap
          intro f' hf'
          simp at hf'
        · rw [if_neg hg] at hgap
          simp at hgap
      · subst hmid
        intro f' hf'
        simp only [Option.some.injEq] at hf'
        subst hf'
        exact ⟨le_max_right _ _, min_le_right _ _⟩
      · exact ih _ it hrest

theorem from_files_fileBounds (files : List BaseFile) (b e : Option Int) :
    ∀ it ∈ (BaseData.from_files files b e).items, it.fileBounds :=
  itemsWalk_fileBounds _ files _

theorem set_begin_noop (dd : BaseData) (t : Int) (h : t < dd.begin) :
    dd.set_begin t = dd := by
  unfold BaseData.set_begin
  rw [if_pos h]

theorem set_end_noop (dd : BaseData) (t : Int) (h : dd.end' < t) :
    dd.set_end t = dd := by
  unfold BaseData.set_end
  rw [if_pos h]

theorem set_begin_narrows (dd : BaseData) (t : Int) (h : dd.begin ≤ t) :
    (dd.set_begin t).begin = t ∧ (dd.set_begin t).end' = dd.end' := by
  unfold BaseData.set_begin
  rw [if_neg (not_lt.mpr h)]
  exact ⟨rfl, rfl⟩

theorem set_end_narrows (dd : BaseData) (t : Int) (h : t ≤ dd.end') :
    (dd.set_end t).end' = t ∧ (dd.set_end t).begin = dd.begin := by
  unfold BaseData.set_end
  rw [if_neg (not_lt.mpr h)]
  exact ⟨rfl, rfl⟩

theorem set_begin_fileBounds (dd : BaseData) (t : Int)
    (hinv : ∀ it ∈ dd.items, it.fileBounds) :
    ∀ it ∈ (dd.set_begin t).items, it.fileBounds := by
  intro it hit
  unfold BaseData.set_begin at hit
  by_cases h : t < dd.begin
  · rw [if_pos h] at hit
    exact hinv it hit
  · rw [if_neg h] at hit
    simp only [List.mem_filterMap] at hit
    obtain ⟨it0, hit0, hmk⟩ := hit
    by_cases hdrop : it0.end' ≤ t
    · rw [if_pos hdrop] at hmk
      simp at hmk
    · rw [if_neg hdrop] at hmk
      simp only [Option.some.injEq] at hmk
      subst hmk
      intro f hf
      obtain ⟨h1, h2⟩ := hinv it0 hit0 f hf
      exact ⟨le_trans h1 (le_max_left _ _), h2⟩

theorem set_end_fileBounds (dd : BaseData) (t : Int)
    (hinv : ∀ it ∈ dd.items, it.fileBounds) :
    ∀ it ∈ (dd.set_end t).items, it.fileBounds := by
  intro it hit
  unfold BaseData.set_end at hit
  by_cases h : dd.end' < t
  · rw [if_pos h] at hit
    exact hinv it hit
  · rw [if_neg h] at hit
    simp only [List.mem_filterMap] at hit
    obtain ⟨it0, hit0, hmk⟩ := hit
    by_cases hdrop : t ≤ it0.begin
    · rw [if_pos hdrop] at hmk
      simp at hmk
    · rw [if_neg hdrop] at hmk
      simp only [Option.some.injEq] at hmk
      subst hmk
      intro f hf
      obtain ⟨h1, h2⟩ := hinv it0 hit0 f hf
      exact ⟨h1, le_trans (min_le_left _ _) h2⟩

theorem windowsLoop_headq (d : Int) (fuel : Nat) (b e : Int) :
    (windowsLoop d fuel b e).head?
      = if 0 < fuel ∧ b < e then some ⟨b, b + d⟩ else none := by
  cases fuel with
  | zero => simp [windowsLoop]
  | succ n =>
    by_cases h : b < e
    · simp [windowsLoop, h]
    · simp [windowsLoop, h]

theorem windowsLoop_chain (d : Int) :
    ∀ (fuel : Nat) (b e : Int),
      List.Chain' (fun x y : Event => x.end' = y.begin)
        (windowsLoop d fuel b e) := by
  intro fuel
  induction fuel with
  | zero => intro b e; simp [windowsLoop]
  | succ n ih =>
    intro b e
    unfold windowsLoop
    by_cases h : b < e
    · rw [if_pos h, List.chain'_cons']
      refine ⟨?_, ih (b + d) e⟩
      intro y hy
      rw [windowsLoop_headq d n (b + d) e] at hy
      by_cases h2 : 0 < n ∧ b + d < e
      · rw [if_pos h2] at hy
        simp only [Option.mem_def, Option.some.injEq] at hy
        subst hy
        rfl
      · rw [if_neg h2] at hy
        simp at hy
    · rw [if_neg h]
      simp

theorem windowsLoop_mem (d : Int) (hd : 0 < d) :
    ∀ (fuel : Nat) (b e : Int), ∀ ev ∈ windowsLoop d fuel b e,
      b ≤ ev.begin ∧ ev.begin < e ∧ ev.end' = ev.begin + d := by
  intro fuel
  induction fuel with
  | zero => intro b e ev hev; simp [windowsLoop] at hev
  | succ n ih =>
    intro b e ev hev
    unfold windowsLoop at hev
    by_cases h : b < e
    · rw [if_pos h] at hev
      rcases List.mem_cons.mp hev with h1 | h1
      · subst h1
        exact ⟨le_refl _, h, rfl⟩
      · obtain ⟨ha, hb, hc⟩ := ih (b + d) e ev h1
        exact ⟨by omega, hb, hc⟩
    · rw [if_neg h] at hev
      simp at hev

theorem windowsLoop_mem_mod (d : Int) :
    ∀ (fuel : Nat) (b e : Int), ∀ ev ∈ windowsLoop d fuel b e,
      d ∣ (ev.begin - b) := by
  intro fuel
  induction fuel with
  | zero => intro b e ev hev; simp [windowsLoop] at hev
  | succ n ih =>
    intro b e ev hev
    unfold windowsLoop at hev
    by_cases h : b < e
    · rw [if_pos h] at hev
      rcases List.mem_cons.mp hev with h1 | h1
      · subst h1
        simp
      · have hrec := ih (b + d) e ev h1
        have heq : ev.begin - b = (ev.begin - (b + d)) + d := by ring
        rw [heq]
        exact dvd_add hrec (dvd_refl d)
    · rw [if_neg h] at hev
      simp at hev

theorem windowsLoop_cover (d : Int) (hd : 0 < d) :
    ∀ (fuel : Nat) (b e t : Int),
      (e - b).toNat ≤ fuel → b ≤ t → t < e →
      ∃ ev ∈ windowsLoop d fuel b e, ev.begin ≤ t ∧ t < ev.end' := by
  intro fuel
  induction fuel with
  | zero => intro b e t hf hbt hte; exfalso; omega
  | succ n ih =>
    intro b e t hf hbt hte
    have hbe : b < e := lt_of_le_of_lt hbt hte
    unfold windowsLoop
    rw [if_pos hbe]
    by_cases hc : t < b + d
    · exact ⟨⟨b, b + d⟩, List.mem_cons_self _ _, hbt, hc⟩
    · push_neg at hc
      obtain ⟨ev, hmem, h1, h2⟩ := ih (b + d) e t (by omega) hc hte
      exact ⟨ev, List.mem_cons_of_mem _ hmem, h1, h2⟩

theorem from_files_data (files : List BaseFile) (b e : Int)
    (dopt : Option Int) :
    (BaseDataset.from_files files (some b) (some e) dopt).data
      = (data_events b e dopt).map
          (fun ev => BaseData.from_files files (some ev.begin)
            (some ev.end')) := rfl

theorem from_files_events (files : List BaseFile) (b e : Int)
    (dopt : Option Int) :
    (BaseDataset.from_files files (some b) (some e) dopt).events
      = data_events b e dopt := by
  unfold BaseDataset.events
  rw [from_files_data, List.map_map]
  apply List.map_id''
  intro ev
  cases ev
  rfl

theorem from_files_covers (files : List BaseFile) (b e t : Int)
    (dopt : Option Int) :
    (BaseDataset.from_files files (some b) (some e) dopt).covers t = true
      ↔ ∃ ev ∈ data_events b e dopt, ev.begin ≤ t ∧ t < ev.end' := by
  unfold BaseDataset.covers
  rw [from_files_data, List.any_eq_true]
  constructor
  · rintro ⟨dd, hdd, hp⟩
    rw [List.mem_map] at hdd
    obtain ⟨ev, hev, rfl⟩ := hdd
    simp only [decide_eq_true_eq] at hp
    exact ⟨ev, hev, hp⟩
  · rintro ⟨ev, hev, h1, h2⟩
    refine ⟨BaseData.from_files files (some ev.begin) (some ev.end'),
      List.mem_map_of_mem _ hev, ?_⟩
    simp only [decide_eq_true_eq]
    exact ⟨h1, h2⟩

theorem data_events_some (b e d : Int) (hd : 0 < d) :
    data_events b e (some d) = windowsLoop d (e - b).toNat b e := by
  simp only [data_events]
  rw [if_pos hd]

/-! ## Manifest deduplication helpers -/

theorem sftMatches_iff (en : SftEntry) (f : SFTObj) :
    sftMatches en f = true ↔ fftParams f = enParams en := by
  simp only [sftMatches, enParams, fftParams, Prod.ext_iff,
    Bool.and_eq_true, decide_eq_true_eq]
  tauto

theorem sftAppendFirst_decomp (fft : SFTObj) (nm : String) :
    ∀ (tbl : List (String × SftEntry)),
      (∃ ke ∈ tbl, sftMatches ke.2 fft = true) →
      ∃ t1 ke t2, tbl = t1 ++ ke :: t2
        ∧ (∀ ke' ∈ t1, sftMatches ke'.2 fft = false)
        ∧ sftMatches ke.2 fft = true
        ∧ sftAppendFirst tbl fft nm
            = t1 ++ (ke.1,
                { ke.2 with spectro_data := ke.2.spectro_data ++ [nm] })
              :: t2 := by
  intro tbl
  induction tbl with
  | nil => rintro ⟨ke, h, _⟩; simp at h
  | cons ke0 rest ih =>
    intro hex
    by_cases h0 : sftMatches ke0.2 fft = true
    · refine ⟨[], ke0, rest, rfl, by simp, h0, ?_⟩
      unfold sftAppendFirst
      rw [if_pos h0]
      rfl
    · have hex' : ∃ ke ∈ rest, sftMatches ke.2 fft = true := by
        obtain ⟨ke, hke, hm⟩ := hex
        rcases List.mem_cons.mp hke with rfl | hke'
        · exact absurd hm h0
        · exact ⟨ke, hke', hm⟩
      obtain ⟨t1, ke, t2, heq, hnone, hm, hres⟩ := ih hex'
      refine ⟨ke0 :: t1, ke, t2, by rw [heq]; rfl, ?_, hm, ?_⟩
      · intro ke' hke'
        rcases List.mem_cons.mp hke' with rfl | hke''
        · exact Bool.eq_false_iff.mpr h0
        · exact hnone ke' hke''
      · unfold sftAppendFirst
        rw [if_neg h0, hres]
        rfl

theorem sftFold_inv (pre : List SpectroDataS)
    (tbl : List (String × SftEntry)) (d : SpectroDataS)
    (h : SftInv pre tbl) : SftInv (pre ++ [d]) (sftFold tbl d) := by
  unfold sftFold
  by_cases hfound : tbl.any (fun ke => sftMatches ke.2 d.fft) = true
  · rw [if_pos hfound]
    have hex : ∃ ke ∈ tbl, sftMatches ke.2 d.fft = true := by
      simpa [List.any_eq_true] using hfound
    obtain ⟨t1, ke, t2, heq, hnone, hm, hres⟩ :=
      sftAppendFirst_decomp d.fft d.name tbl hex
    rw [hres]
    subst heq
    obtain ⟨hdis, hsnd, hcmp⟩ := h
    refine ⟨?_, ?_, ?_⟩
    · obtain ⟨hp1, hp2, hcross⟩ := List.pairwise_append.mp hdis
      obtain ⟨hke2, hp2'⟩ := List.pairwise_cons.mp hp2
      refine List.pairwise_append.mpr
        ⟨hp1, List.pairwise_cons.mpr ⟨?_, hp2'⟩, ?_⟩
      · intro b hb
        exact hke2 b hb
      · intro a ha b hb
        rcases List.mem_cons.mp hb with rfl | hb'
        · exact hcross a ha ke (List.mem_cons_self _ _)
        · exact hcross a ha b (List.mem_cons_of_mem _ hb')
    · intro ke'' hke'' nm hnm
      rcases List.mem_append.mp hke'' with hke1 | hke1
      · obtain ⟨d0, hd0, hd0n, hd0p⟩ := hsnd ke''
          (List.mem_append_left _ hke1) nm hnm
        exact ⟨d0, List.mem_append_left _ hd0, hd0n, hd0p⟩
      · rcases List.mem_cons.mp hke1 with rfl | hke2
        · rcases List.mem_append.mp hnm with hnm1 | hnm1
          · obtain ⟨d0, hd0, hd0n, hd0p⟩ := hsnd ke
              (List.mem_append_right _ (List.mem_cons_self _ _)) nm hnm1
            exact ⟨d0, List.mem_append_left _ hd0, hd0n, hd0p⟩
          · rw [List.mem_singleton] at hnm1
            subst hnm1
            exact ⟨d, List.mem_append_right _ (List.mem_singleton.mpr rfl),
              rfl, (sftMatches_iff _ _).mp hm⟩
        · obtain ⟨d0, hd0, hd0n, hd0p⟩ := hsnd ke''
            (List.mem_append_right _ (List.mem_cons_of_mem _ hke2)) nm hnm
          exact ⟨d0, List.mem_append_left _ hd0, hd0n, hd0p⟩
    · intro d0 hd0
      rcases List.mem_append.mp hd0 with hd1 | hd1
      · obtain ⟨ke0, hke0, hp, hn⟩ := hcmp d0 hd1
        rcases List.mem_append.mp hke0 with hke1 | hke1
        · exact ⟨ke0, List.mem_append_left _ hke1, hp, hn⟩
        · rcases List.mem_cons.mp hke1 with rfl | hke2
          · refine ⟨(ke0.1, { ke0.2 with
                spectro_data := ke0.2.spectro_data ++ [d.name] }),
              List.mem_append_right _ (List.mem_cons_self _ _), hp, ?_⟩
            exact List.mem_append_left _ hn
          · exact ⟨ke0,
              List.mem_append_right _ (List.mem_cons_of_mem _ hke2),
              hp, hn⟩
      · rw [List.mem_singleton] at hd1
        subst hd1
        refine ⟨(ke.1, { ke.2 with
            spectro_data := ke.2.spectro_data ++ [d0.name] }),
          List.mem_append_right _ (List.mem_cons_self _ _),
          (sftMatches_iff _ _).mp hm, ?_⟩
        exact List.mem_append_right _ (List.mem_singleton.mpr rfl)
  · rw [if_neg hfound]
    have hnomatch : ∀ ke ∈ tbl, sftMatches ke.2 d.fft = false := by
      intro ke hke
      rw [Bool.eq_false_iff]
      intro hcontra
      exact hfound (List.any_eq_true.mpr ⟨ke, hke, hcontra⟩)
    obtain ⟨hdis, hsnd, hcmp⟩ := h
    refine ⟨?_, ?_, ?_⟩
    · refine List.pairwise_append.mpr ⟨hdis, by simp, ?_⟩
      intro a ha b hb
      rw [List.mem_singleton] at hb
      subst hb
      intro hcontra
      have : sftMatches a.2 d.fft = true := by
        rw [sftMatches_iff]
        exact hcontra.symm
      rw [hnomatch a ha] at this
      exact Bool.false_ne_true this
    · intro ke hke nm hnm
      rcases List.mem_append.mp hke with hke1 | hke1
      · obtain ⟨d0, hd0, hd0n, hd0p⟩ := hsnd ke hke1 nm hnm
        exact ⟨d0, List.mem_append_left _ hd0, hd0n, hd0p⟩
      · rw [List.mem_singleton] at hke1
        subst hke1
        rw [List.mem_singleton] at hnm
        subst hnm
        exact ⟨d, List.mem_append_right _ (List.mem_singleton.mpr rfl),
          rfl, rfl⟩
    · intro d0 hd0
      rcases List.mem_append.mp hd0 with hd1 | hd1
      · obtain ⟨ke0, hke0, hp, hn⟩ := hcmp d0 hd1
        exact ⟨ke0, List.mem_append_left _ hke0, hp, hn⟩
      · rw [List.mem_singleton] at hd1
        subst hd1
        refine ⟨(d0.fft.name,
            ⟨d0.fft.win, d0.fft.hop, d0.fft.fs, d0.fft.mfft, [d0.name]⟩),
          List.mem_append_right _ (List.mem_singleton.mpr rfl), rfl, ?_⟩
        exact List.mem_singleton.mpr rfl

theorem foldl_sftFold_inv :
    ∀ (l pre : List SpectroDataS) (tbl : List (String × SftEntry)),
      SftInv pre tbl → SftInv (pre ++ l) (l.foldl sftFold tbl) := by
  intro l
  induction l with
  | nil => intro pre tbl h; simpa using h
  | cons d l ih =>
    intro pre tbl h
    have h2 := ih (pre ++ [d]) (sftFold tbl d) (sftFold_inv pre tbl d h)
    simpa using h2

theorem to_dict_inv (ds : List SpectroDataS) :
    SftInv ds (SpectroDataset.to_dict ds).sft := by
  have h0 : SftInv [] [] := ⟨by simp, by simp, by simp⟩
  have h := foldl_sftFold_inv ds [] [] h0
  simpa [SpectroDataset.to_dict] using h

theorem mapM_map_some {α β γ : Type} (g : α → β) (f : β → Option γ)
    (R : α → γ → Prop) :
    ∀ l : List α, (∀ x ∈ l, ∃ y, f (g x) = some y ∧ R x y) →
      ∃ l', (l.map g).mapM f = some l' ∧ List.Forall₂ R l l' := by
  intro l
  induction l with
  | nil => intro _; exact ⟨[], rfl, List.Forall₂.nil⟩
  | cons a l ih =>
    intro h
    obtain ⟨y, hy, hR⟩ := h a (List.mem_cons_self _ _)
    obtain ⟨l', hl', hF⟩ := ih (fun x hx => h x (List.mem_cons_of_mem _ hx))
    refine ⟨y :: l', ?_, List.Forall₂.cons hR hF⟩
    rw [List.map_cons, List.mapM_cons, hy, hl']
    rfl

theorem from_dict_eq (dd : SpectroDatasetDict) :
    SpectroDataset.from_dict dd
      = dd.data.mapM
          (fun nde =>
            ((dd.sft.map
                (fun ke => (SFTObj.mk 0 ke.2.win ke.2.hop ke.2.fs
                  ke.2.mfft, ke.2.spectro_data))).find?
              (fun se => se.2.contains nde.1)).map
              (fun se => SpectroDataS.mk nde.1 nde.2.1 nde.2.2 se.1)) :=
  rfl

theorem to_dict_lookup (ds : List SpectroDataS)
    (hnd : (ds.map (fun d => d.name)).Nodup) (d : SpectroDataS)
    (hd : d ∈ ds) :
    ∃ se, (((SpectroDataset.to_dict ds).sft.map
        (fun ke => (SFTObj.mk 0 ke.2.win ke.2.hop ke.2.fs ke.2.mfft,
          ke.2.spectro_data))).find?
        (fun se => se.2.contains d.name)) = some se
      ∧ fftParams se.1 = fftParams d.fft := by
  obtain ⟨hdis, hsnd, hcmp⟩ := to_dict_inv ds
  obtain ⟨ke, hke, hp, hn⟩ := hcmp d hd
  have hc : (ke.2.spectro_data.contains d.name) = true :=
    List.elem_iff.mpr hn
  have hex : ∃ se ∈ ((SpectroDataset.to_dict ds).sft.map
      (fun ke => (SFTObj.mk 0 ke.2.win ke.2.hop ke.2.fs ke.2.mfft,
        ke.2.spectro_data))), (se.2.contains d.name) = true :=
    ⟨(SFTObj.mk 0 ke.2.win ke.2.hop ke.2.fs ke.2.mfft,
      ke.2.spectro_data), List.mem_map_of_mem _ hke, hc⟩
  obtain ⟨se, hfind⟩ :=
    Option.isSome_iff_exists.mp (List.find?_isSome.mpr hex)
  refine ⟨se, hfind, ?_⟩
  have hpred := List.find?_some hfind
  have hmem := List.mem_of_find?_eq_some hfind
  rw [List.mem_map] at hmem
  obtain ⟨ke', hke', rfl⟩ := hmem
  have hn' : d.name ∈ ke'.2.spectro_data := List.elem_iff.mp hpred
  obtain ⟨d', hd', hd'n, hd'p⟩ := hsnd ke' hke' d.name hn'
  have hdd : d' = d := List.inj_on_of_nodup_map hnd hd' hd hd'n
  subst hdd
  exact hd'p.symm

/-! ## Claim theorems -/

/-- C1 counterexample to the claim as stated: building from one file
`[0, 50)` (ticks are minutes) with defaulted `begin`/`end` (the requested
range is therefore `[0, 50)`) and `data_duration = 20`, the point 55 lies
in the union of the resulting Data Events although it is outside the
requested range — the union is `[0, 60)`, not `[0, 50)`. -/
theorem C1_partition_coverage_counterexample :
    (BaseDataset.from_files [⟨"foo", 0, 50⟩] none none (some 20)).covers 55
        = true
      ∧ ¬ ((55 : Int) < 50) := by
  exact ⟨by decide, by decide⟩

/-- C1 (amended): for every file list, requested `begin < end` and
`data_duration = d > 0`, the resulting Data Events form a contiguous
chain (no gaps, no overlaps between consecutive Events) starting exactly
at `begin`; every requested point of `[begin, end)` is covered; every
covered point lies in `[begin, end + d)`; the union equals `[begin, end)`
exactly when `d` divides `end - begin`, and otherwise strictly exceeds it
(the point `end` itself is covered: the last window is grown past `end`
rather than emitting a short final window). With `data_duration = None`
the single Data Event is exactly `[begin, end)`. -/
theorem C1_partition_coverage_amended :
    ∀ (files : List BaseFile) (b e d : Int), 0 < d → b < e →
      (List.Chain' (fun x y : Event => x.end' = y.begin)
          (BaseDataset.from_files files (some b) (some e) (some d)).events)
      ∧ (((BaseDataset.from_files files (some b) (some e)
            (some d)).events.head?).map (fun ev => ev.begin) = some b)
      ∧ (∀ t : Int, b ≤ t → t < e →
          (BaseDataset.from_files files (some b) (some e)
            (some d)).covers t = true)
      ∧ (∀ t : Int,
          (BaseDataset.from_files files (some b) (some e)
            (some d)).covers t = true → b ≤ t ∧ t < e + d)
      ∧ (d ∣ (e - b) →
          ∀ t : Int,
            (BaseDataset.from_files files (some b) (some e)
              (some d)).covers t = true ↔ (b ≤ t ∧ t < e))
      ∧ (¬ d ∣ (e - b) →
          (BaseDataset.from_files files (some b) (some e)
            (some d)).covers e = true)
      ∧ (∀ (files' : List BaseFile) (b' e' : Int),
          (BaseDataset.from_files files' (some b') (some e') none).events
            = [⟨b', e'⟩]) := by
  intro files b e d hd hbe
  have hev := from_files_events files b e (some d)
  have hwin := data_events_some b e d hd
  refine ⟨?_, ?_, ?_, ?_, ?_, ?_, ?_⟩
  · rw [hev, hwin]
    exact windowsLoop_chain d _ b e
  · rw [hev, hwin, windowsLoop_headq]
    rw [if_pos ⟨by omega, hbe⟩]
    rfl
  · intro t hbt hte
    rw [from_files_covers, hwin]
    exact windowsLoop_cover d hd _ b e t (le_refl _) hbt hte
  · intro t hcov
    rw [from_files_covers, hwin] at hcov
    obtain ⟨ev, hmem, h1, h2⟩ := hcov
    obtain ⟨ha, hb, hc⟩ := windowsLoop_mem d hd _ b e ev hmem
    constructor
    · omega
    · omega
  · intro hdvd t
    constructor
    · intro hcov
      rw [from_files_covers, hwin] at hcov
      obtain ⟨ev, hmem, h1, h2⟩ := hcov
      obtain ⟨ha, hb, hc⟩ := windowsLoop_mem d hd _ b e ev hmem
      have hmod := windowsLoop_mem_mod d _ b e ev hmem
      have hdeb : d ∣ (e - ev.begin) := by
        have heq : e - ev.begin = (e - b) - (ev.begin - b) := by ring
        rw [heq]
        exact dvd_sub hdvd hmod
      have hle : d ≤ e - ev.begin := Int.le_of_dvd (by omega) hdeb
      constructor
      · omega
      · omega
    · intro ⟨hbt, hte⟩
      rw [from_files_covers, hwin]
      exact windowsLoop_cover d hd _ b e t (le_refl _) hbt hte
  · intro hndvd
    rw [from_files_covers, hwin]
    obtain ⟨ev, hmem, h1, h2⟩ :=
      windowsLoop_cover d hd _ b e (e - 1) (le_refl _) (by omega)
        (by omega)
    obtain ⟨ha, hb, hc⟩ := windowsLoop_mem d hd _ b e ev hmem
    have hmod := windowsLoop_mem_mod d _ b e ev hmem
    have hne : ev.begin + d ≠ e := by
      intro hcontra
      apply hndvd
      have heq : e - b = (ev.begin - b) + d := by omega
      rw [heq]
      exact dvd_add hmod (dvd_refl d)
    exact ⟨ev, hmem, by omega, by omega⟩
  · intro files' b' e'
    rw [from_files_events]
    rfl

/-- C1 witness for the amended theorem: the file `[0, 50)` split in
20-tick windows starting at the requested begin 0 covers the requested
point 25. -/
theorem C1_partition_coverage_amended_witness :
    (BaseDataset.from_files [⟨"foo", 0, 50⟩] (some 0) (some 50)
        (some 20)).covers 25 = true :=
  (C1_partition_coverage_amended [⟨"foo", 0, 50⟩] 0 50 20 (by decide)
    (by decide)).2.2.1 25 (by decide) (by decide)

/-- C2: partitioning with a fixed `data_duration` walks forward from
`begin` in `data_duration` steps and never emits a short final window:
the 50-minute range `[00:00, 00:50)` (ticks are minutes here) split with
`data_duration = 20` minutes yields exactly the 3 windows
`[0,20), [20,40), [40,60)` — three windows, each of full 20-minute
duration, and no fourth one. -/
theorem C2_remainder_merge :
    (BaseDataset.from_files [⟨"foo", 0, 50⟩] none none (some 20)).events
        = [⟨0, 20⟩, ⟨20, 40⟩, ⟨40, 60⟩]
      ∧ (BaseDataset.from_files [⟨"foo", 0, 50⟩] none none
          (some 20)).data.length = 3
      ∧ ((BaseDataset.from_files [⟨"foo", 0, 50⟩] none none
          (some 20)).events.all
            (fun ev => decide (ev.duration = 20))) = true := by
  exact ⟨by decide, by decide, by decide⟩

/-- C3: at construction time an out-of-range requested `begin`/`end` is
honored verbatim: in general `BaseData.from_files` with explicit bounds
takes them unchanged, and concretely (ticks are seconds) one file
covering `[00:00, 01:00)` = `[0, 3600)` requested over
`[23:00 previous day, 02:00)` = `[-3600, 7200)` yields a single Data
whose Event is exactly the requested range, with empty (file-less) Items
filling `[-3600, 0)` and `[3600, 7200)`. -/
theorem C3_bounds_honored_verbatim :
    (∀ (files : List BaseFile) (b e : Int),
        (BaseData.from_files files (some b) (some e)).begin = b
          ∧ (BaseData.from_files files (some b) (some e)).end' = e)
      ∧ (BaseDataset.from_files [⟨"foo", 0, 3600⟩] (some (-3600))
          (some 7200) none).data
        = [⟨[⟨none, -3600, 0⟩, ⟨some ⟨"foo", 0, 3600⟩, 0, 3600⟩,
              ⟨none, 3600, 7200⟩], -3600, 7200⟩] :=
  ⟨fun _ _ _ => ⟨rfl, rfl⟩, by decide⟩

/-- C5: Data equality is structural and content-independent: two Data are
equal iff they have the same begin, the same end and the same underlying
file identities in the same order; two Data built independently from the
same files and bounds are equal; differing in one file identity or one
boundary timestamp makes them unequal (concrete instances mirror
`test_base_data_equality`, ticks are seconds). -/
theorem C5_equality_structural :
    (∀ d1 d2 : BaseData,
        BaseData.beq d1 d2 = true ↔
          (d1.begin = d2.begin ∧ d1.end' = d2.end'
            ∧ d1.files.map (·.path) = d2.files.map (·.path)))
      ∧ (∀ (files : List BaseFile) (b e : Option Int),
          BaseData.beq (BaseData.from_files files b e)
            (BaseData.from_files files b e) = true)
      ∧ BaseData.beq
          (BaseData.from_files [⟨"beach", 0, 60⟩, ⟨"house", 2, 63⟩]
            none none)
          (BaseData.from_files [⟨"cherry", 0, 60⟩, ⟨"house", 2, 63⟩]
            none none) = false
      ∧ BaseData.beq
          (BaseData.from_files [⟨"cherry", 0, 60⟩] none none)
          (BaseData.from_files [⟨"cherry", 0, 60⟩] (some 1) none)
          = false := by
  refine ⟨?_, ?_, by decide, by decide⟩
  · intro d1 d2
    simp [BaseData.beq, and_assoc]
  · intro files b e
    simp [BaseData.beq]

/-- C4: boundary mutation on an already-constructed Data is
narrowing-only: assigning a begin earlier than the current begin (or an
end later than the current end) is a no-op; assigning a boundary inside
the current range narrows the Data to exactly the assigned boundary; and
after any such assignment every non-empty Item still satisfies
`file.begin <= item.begin` and `item.end <= file.end` (the invariant is
established by `from_files` and preserved by both setters, in any
composition). -/
theorem C4_narrowing_only_mutation :
    (∀ (dd : BaseData) (t : Int), t < dd.begin → dd.set_begin t = dd)
      ∧ (∀ (dd : BaseData) (t : Int), dd.end' < t → dd.set_end t = dd)
      ∧ (∀ (dd : BaseData) (t : Int), dd.begin ≤ t →
          (dd.set_begin t).begin = t ∧ (dd.set_begin t).end' = dd.end')
      ∧ (∀ (dd : BaseData) (t : Int), t ≤ dd.end' →
          (dd.set_end t).end' = t ∧ (dd.set_end t).begin = dd.begin)
      ∧ (∀ (files : List BaseFile) (b e : Option Int) (t1 t2 : Int),
          ∀ it ∈ (((BaseData.from_files files b e).set_begin t1).set_end
            t2).items, it.fileBounds) := by
  refine ⟨set_begin_noop, set_end_noop, set_begin_narrows,
    set_end_narrows, ?_⟩
  intro files b e t1 t2
  exact set_end_fileBounds _ _
    (set_begin_fileBounds _ _ (from_files_fileBounds files b e))

/-- C4 witness: concrete instances (file `[120, 130)`, ticks are tenths
of seconds, mirroring `test_base_data_boundaries`): setting begin to 115
(earlier than 120) is a no-op, setting begin to 125 narrows to 125, and
after narrowing the single file-backed item still lies within its file. -/
theorem C4_narrowing_only_mutation_witness :
    (BaseData.from_files [⟨"cool", 120, 130⟩] none none).set_begin 115
        = BaseData.from_files [⟨"cool", 120, 130⟩] none none
      ∧ ((BaseData.from_files [⟨"cool", 120, 130⟩] none none).set_begin
          125).begin = 125
      ∧ ∀ it ∈ (((BaseData.from_files [⟨"cool", 120, 130⟩] none
          none).set_begin 125).set_end 128).items, it.fileBounds := by
  refine ⟨C4_narrowing_only_mutation.1 _ 115 (by decide),
    (C4_narrowing_only_mutation.2.2.1 _ 125 (by decide)).1,
    C4_narrowing_only_mutation.2.2.2.2 [⟨"cool", 120, 130⟩] none none
      125 128⟩

/-- C6: LTAS base-case equivalence: for every black-box FFT kernel, every
black-box column-count function, every item materialization, every
recursion budget and every LTASData whose implied time-column count is at
most `nb_time_bins`, the recursive `LTASData.get_value` returns exactly
the plain `SpectroData.get_value` over the same window and fft. -/
theorem C6_ltas_base_case :
    ∀ (stftK : SFT → List Rat → SxMatrix) (pnum : SFT → Nat → Nat)
      (readResample : BaseItem → List Rat) (fuel : Nat) (L : LTASData),
      SpectroData.shape2 pnum L.toSpectro ≤ L.nb_time_bins →
      LTASData.get_value stftK pnum readResample fuel L
        = some (SpectroData.get_value stftK readResample L.toSpectro) := by
  intro stftK pnum readResample fuel L h
  unfold LTASData.get_value
  rw [if_pos h]

/-- C6 witness: a concrete LTASData (one empty 10-tick window, one-bin
fft) whose implied column count 0 is at most `nb_time_bins = 4`; the
recursive value with budget 0 already equals the plain spectro value. -/
theorem C6_ltas_base_case_witness :
    LTASData.get_value (fun _ xs => [xs]) (fun _ _ => 0) (fun _ => []) 0
        ⟨⟨⟨[], 0, 10⟩, 1⟩, ⟨[1], 1, 1, 1⟩, 4⟩
      = some (SpectroData.get_value (fun _ xs => [xs]) (fun _ => [])
          (LTASData.toSpectro ⟨⟨⟨[], 0, 10⟩, 1⟩, ⟨[1], 1, 1, 1⟩, 4⟩)) :=
  C6_ltas_base_case (fun _ xs => [xs]) (fun _ _ => 0) (fun _ => []) 0
    ⟨⟨⟨[], 0, 10⟩, 1⟩, ⟨[1], 1, 1, 1⟩, 4⟩ (by decide)

/-- C9: template validation: any datetime template containing a `%`
followed by an unsupported character, or ending with a bare `%`, is
rejected by `is_datetime_template_valid`; and `strptime_from_text` on an
invalid template raises the ValueError before any regex is built or
matched — the error is the same for every text and every regex engine. -/
theorem C9_template_rejection :
    (∀ (tmpl : String) (i : Nat),
        i < tmpl.toList.length →
        tmpl.toList.getD i ' ' = '%' →
        (i = tmpl.toList.length - 1
          ∨ strftime_identifiers.contains (tmpl.toList.getD (i + 1) ' ')
              = false) →
        is_datetime_template_valid tmpl = false)
      ∧ (∀ (findall : String → String → List (List String))
          (toDT : String → String → Int) (text tmpl : String),
          is_datetime_template_valid tmpl = false →
          strptime_from_text findall toDT text tmpl
            = .error (tmpl ++ " is not a supported strftime template")) := by
  constructor
  · intro tmpl i hi hpc hbad
    rw [Bool.eq_false_iff]
    intro hvalid
    simp only [is_datetime_template_valid] at hvalid
    have hp := List.all_eq_true.mp hvalid i (List.mem_range.mpr hi)
    rw [if_pos hpc] at hp
    by_cases hlast : i = tmpl.toList.length - 1
    · rw [if_pos hlast] at hp
      exact Bool.false_ne_true hp
    · rw [if_neg hlast] at hp
      rcases hbad with hbad | hbad
      · exact hlast hbad
      · rw [hbad] at hp
        exact Bool.false_ne_true hp
  · intro findall toDT text tmpl h
    unfold strptime_from_text
    rw [if_pos h]

/-- C9 witness: the template `"%u"` (unsupported code `%u`) is rejected
by the validator, and `strptime_from_text` fails on it with the template
error for an arbitrary text and a regex engine that is never consulted. -/
theorem C9_template_rejection_witness :
    is_datetime_template_valid "%u" = false
      ∧ strptime_from_text (fun _ _ => []) (fun _ _ => 0) "foo.txt" "%u"
          = .error ("%u" ++ " is not a supported strftime template") := by
  have hv := C9_template_rejection.1 "%u" 0 (by decide) (by decide)
    (Or.inr (by decide))
  exact ⟨hv, C9_template_rejection.2 (fun _ _ => []) (fun _ _ => 0)
    "foo.txt" "%u" hv⟩

/-- C8: the SpectroDataset manifest round-trip: provided the data names
(their formatted begin timestamps, the dictionary keys) are distinct and
`str(fft)` collisions only happen between ffts with equal parameters,
`from_dict ∘ to_dict` succeeds and preserves, for every SpectroData in
order, its name, its serialized parameters and its FFT parameter set
(win, hop, fs, mfft) — i.e. its association to its fft; and `to_dict`
stores each distinct FFT parameter set exactly once in the `sft` table
(entries have pairwise distinct parameter sets and every data is
referenced by the entry matching its own parameters). -/
theorem C8_manifest_roundtrip_dedup :
    ∀ ds : List SpectroDataS,
      (ds.map (fun d => d.name)).Nodup →
      (∀ d1 ∈ ds, ∀ d2 ∈ ds, d1.fft.name = d2.fft.name →
        fftParams d1.fft = fftParams d2.fft) →
      (∃ ds', SpectroDataset.from_dict (SpectroDataset.to_dict ds)
            = some ds'
          ∧ List.Forall₂ (fun d d' => d'.name = d.name
              ∧ d'.begin = d.begin ∧ d'.end' = d.end'
              ∧ fftParams d'.fft = fftParams d.fft) ds ds')
      ∧ ((SpectroDataset.to_dict ds).sft.Pairwise
          (fun a b => enParams a.2 ≠ enParams b.2))
      ∧ (∀ d ∈ ds, ∃ ke ∈ (SpectroDataset.to_dict ds).sft,
          fftParams d.fft = enParams ke.2
            ∧ d.name ∈ ke.2.spectro_data) := by
  intro ds hnd _hid
  refine ⟨?_, (to_dict_inv ds).distinct, (to_dict_inv ds).complete⟩
  rw [from_dict_eq]
  have hdata : (SpectroDataset.to_dict ds).data
      = ds.map (fun d => (d.name, d.begin, d.end')) := rfl
  rw [hdata]
  exact mapM_map_some (fun d : SpectroDataS => (d.name, d.begin, d.end'))
    _ _ ds
    (fun d hd => by
      obtain ⟨se, hse, hp⟩ := to_dict_lookup ds hnd d hd
      exact ⟨SpectroDataS.mk d.name d.begin d.end' se.1,
        by rw [hse]; rfl, rfl, rfl, rfl, hp⟩)

/-- C8 witness: a concrete dataset of three SpectroData where the first
two share the same FFT parameter set through distinct fft objects and the
third has a different parameter set; the round-trip succeeds and the
`sft` table deduplicates. -/
theorem C8_manifest_roundtrip_dedup_witness :
    (∃ ds', SpectroDataset.from_dict (SpectroDataset.to_dict
          ([⟨"a", 0, 10, ⟨1, [1], 2, 3, 4⟩⟩, ⟨"b", 10, 20, ⟨2, [1], 2, 3, 4⟩⟩,
           ⟨"c", 20, 30, ⟨3, [5], 2, 3, 4⟩⟩] : List SpectroDataS)) = some ds'
        ∧ List.Forall₂ (fun d d' => d'.name = d.name
            ∧ d'.begin = d.begin ∧ d'.end' = d.end'
            ∧ fftParams d'.fft = fftParams d.fft)
          ([⟨"a", 0, 10, ⟨1, [1], 2, 3, 4⟩⟩, ⟨"b", 10, 20, ⟨2, [1], 2, 3, 4⟩⟩,
           ⟨"c", 20, 30, ⟨3, [5], 2, 3, 4⟩⟩] : List SpectroDataS) ds')
      ∧ ((SpectroDataset.to_dict
          ([⟨"a", 0, 10, ⟨1, [1], 2, 3, 4⟩⟩, ⟨"b", 10, 20, ⟨2, [1], 2, 3, 4⟩⟩,
           ⟨"c", 20, 30, ⟨3, [5], 2, 3, 4⟩⟩] : List SpectroDataS)).sft.Pairwise
          (fun a b => enParams a.2 ≠ enParams b.2))
      ∧ (∀ d ∈ ([⟨"a", 0, 10, ⟨1, [1], 2, 3, 4⟩⟩, ⟨"b", 10, 20, ⟨2, [1], 2, 3, 4⟩⟩,
           ⟨"c", 20, 30, ⟨3, [5], 2, 3, 4⟩⟩] : List SpectroDataS),
          ∃ ke ∈ (SpectroDataset.to_dict
            ([⟨"a", 0, 10, ⟨1, [1], 2, 3, 4⟩⟩, ⟨"b", 10, 20, ⟨2, [1], 2, 3, 4⟩⟩,
           ⟨"c", 20, 30, ⟨3, [5], 2, 3, 4⟩⟩] : List SpectroDataS)).sft,
            fftParams d.fft = enParams ke.2
              ∧ d.name ∈ ke.2.spectro_data) :=
  C8_manifest_roundtrip_dedup
    [⟨"a", 0, 10, ⟨1, [1], 2, 3, 4⟩⟩, ⟨"b", 10, 20, ⟨2, [1], 2, 3, 4⟩⟩,
     ⟨"c", 20, 30, ⟨3, [5], 2, 3, 4⟩⟩] (by decide) (by decide)

/-- C10: the audio buffer-fill loop never overflows: for every sample
rate, every black-box item materialization and any `reject_dc` flag,
`AudioData.get_value` returns exactly
`round(sample_rate * duration_in_seconds)` samples — each Item's
contribution is truncated to the space remaining in the output buffer. -/
theorem C10_get_value_length :
    ∀ (readResample : BaseItem → List Rat) (reject_dc : Bool)
      (ad : AudioData),
      (ad.get_value readResample reject_dc).length = ad.shape := by
  intro readResample reject_dc ad
  unfold AudioData.get_value
  have hfill := fillLoop_length ad.shape
    (ad.base.items.map (AudioData.get_item_value ad.sample_rate readResample))
    (List.replicate ad.shape 0) 0 (Nat.zero_le _)
    (List.length_replicate _ _)
  by_cases h : reject_dc
  · simp only [h, if_true, List.length_map]
    exact hfill
  · simp only [h, if_false]
    exact hfill

/-- C7: `sx_dtype` conversion law: assigning `sx_dtype := float` always
makes `get_value` succeed with a real matrix — for complex-valued stored
data it returns the entrywise magnitude with phase discarded — while
assigning `sx_dtype := complex` on data backed by real-valued (absolute)
files makes `get_value` fail with the `TypeConversionError` carrying the
code's message, never silently returning a value. -/
theorem C7_sx_dtype_conversion_law :
    (∀ (mag : Rat × Rat → Rat) (sd : FileSpectroData),
        ∃ m, (sd.set_sx_dtype .float).get_value mag = .ok (.real m))
      ∧ (∀ (mag : Rat × Rat → Rat) (m : List (List (Rat × Rat)))
          (d0 : SxDtype),
          (FileSpectroData.mk (.cplx m) d0 |>.set_sx_dtype
              .float).get_value mag
            = .ok (.real (m.map (fun row => row.map mag))))
      ∧ (∀ (mag : Rat × Rat → Rat) (m : List (List Rat)) (d0 : SxDtype),
          (FileSpectroData.mk (.real m) d0 |>.set_sx_dtype
              .complex).get_value mag
            = .error (.TypeConversionError
                "Cannot convert absolute npz values to complex sx values.")) := by
  refine ⟨?_, fun mag m d0 => rfl, fun mag m d0 => rfl⟩
  intro mag sd
  cases hsx : sd.sx with
  | cplx m =>
    exact ⟨m.map (fun row => row.map mag),
      by simp [FileSpectroData.get_value, FileSpectroData.set_sx_dtype, hsx]⟩
  | real m =>
    exact ⟨m,
      by simp [FileSpectroData.get_value, FileSpectroData.set_sx_dtype, hsx]⟩
